import Mathlib

/-!
Verification of the reedos concurrency/timer core against its specification.

The development shallowly embeds two source files:
* `src/riscv.rs` — the CLINT timer-arming routine `write_clint`, modelled as
  the trace of memory-mapped events it performs (64-bit wrap-around arithmetic
  is made explicit with `% 2 ^ 64`);
* `src/spinlock.rs` — the spinlock `Mutex` / `MutexGuard` pair, modelled as a
  state structure together with a labelled step relation generated by the
  atomic swap in `Mutex::lock` and the atomic store in `MutexGuard::drop`.
-/

namespace Reedos

/-- Events on memory-mapped I/O addresses: a volatile 64-bit read of an
address, or a volatile 64-bit write of a value to an address. `write_clint`
is embedded as the list of such events it performs. -/
inductive MemEvent where
  | read (addr : Nat) : MemEvent
  | write (addr : Nat) (value : Nat) : MemEvent
deriving DecidableEq, Repr

/-- The values written by a trace of memory events, in order. -/
def writtenValues (tr : List MemEvent) : List Nat :=
  tr.filterMap fun e =>
    match e with
    | MemEvent.write _ v => some v
    | MemEvent.read _ => none

/-- Modulus of 64-bit wrap-around arithmetic (`u64` / `usize` on riscv64). -/
def U64 : Nat := 2 ^ 64

/-- Embedding of `write_clint` from `src/riscv.rs`:
```text
pub fn write_clint(hartid: u64, base: usize, interval: u64) {
    let base = (base + 0x4000 + 8 * (hartid as usize)) as *mut u64;
    unsafe {
        base.write_volatile(base as u64 + 0xBFF8 + interval);
    }
}
```
The local `base` pointer is the target address; the single volatile write
stores the numeric value of that pointer plus `0xBFF8` plus `interval`.
The function performs no volatile read.  All arithmetic wraps modulo
`2 ^ 64`. The result is the trace of memory events performed. -/
def write_clint (hartid : Nat) (base : Nat) (interval : Nat) : List MemEvent :=
  let target := (base + 0x4000 + 8 * hartid) % U64
  [MemEvent.write target ((target + 0xBFF8 + interval) % U64)]

/- ### Spinlock embedding (`src/spinlock.rs`) -/

namespace Atomic

/-- The memory orderings of `core::sync::atomic::Ordering` that the source
mentions or could have used. -/
inductive Ordering where
  | Relaxed
  | Acquire
  | Release
  | AcqRel
  | SeqCst
deriving DecidableEq, Repr

end Atomic

/-- An atomic operation on the `lock_state` word, recording the memory
ordering it was issued with: `swap stored returned ord` models
`AtomicU32::swap(stored, ord)` returning `returned`; `store v ord` models
`AtomicU32::store(v, ord)`. -/
inductive AtomicEvent where
  | swap (stored : Nat) (returned : Nat) (ord : Atomic.Ordering) : AtomicEvent
  | store (value : Nat) (ord : Atomic.Ordering) : AtomicEvent
deriving DecidableEq, Repr

/-- The memory ordering an atomic event was issued with. -/
def AtomicEvent.ord : AtomicEvent → Atomic.Ordering
  | AtomicEvent.swap _ _ o => o
  | AtomicEvent.store _ o => o

/-- Embedding of `Mutex<T>` from `src/spinlock.rs`: an atomic lock word
(`lock_state: AtomicU32`, `(0,1) = (unlocked, locked)`) and the protected
payload (`inner: UnsafeCell<T>`). -/
structure Mutex (T : Type) where
  lock_state : Nat
  inner : T
deriving DecidableEq, Repr

/-- Embedding of `Mutex::new`:
```text
pub const fn new(value: T) -> Self {
    Mutex { lock_state: AtomicU32::new(0), inner: UnsafeCell::new(value) }
}
``` -/
def Mutex.new {T : Type} (value : T) : Mutex T :=
  { lock_state := 0, inner := value }

/-- One iteration of the loop body of `Mutex::lock`
(`self.lock_state.swap(1, Ordering::Acquire)`): the atomic swap returns the
old word, stores `1`, and is issued with `Acquire` ordering.  The result is
(value returned by the swap, mutex afterwards, atomic event performed).
`Mutex::lock` itself repeats this attempt while the returned value equals
`1` and returns a guard as soon as it does not; the unbounded retry loop is
embedded below as the `Step.spin` / `Step.acquire` transitions. -/
def Mutex.lockAttempt {T : Type} (m : Mutex T) : Nat × Mutex T × AtomicEvent :=
  (m.lock_state, { m with lock_state := 1 },
    AtomicEvent.swap 1 m.lock_state Atomic.Ordering.Acquire)

/-- Embedding of `MutexGuard::drop`
(`self.mutex.lock_state.store(0, Ordering::Release)`): unconditionally
store `0` with `Release` ordering.  The result is (mutex afterwards, atomic
event performed). -/
def MutexGuard.drop {T : Type} (m : Mutex T) : Mutex T × AtomicEvent :=
  ({ m with lock_state := 0 }, AtomicEvent.store 0 Atomic.Ordering.Release)

/-- A system state for reasoning about concurrent use of one mutex by any
number of harts: the mutex together with the list of harts currently holding
a live `MutexGuard` on it. -/
structure Sys (T : Type) where
  mutex : Mutex T
  holders : List Nat
deriving DecidableEq, Repr

/-- The initial system state: a freshly constructed mutex, no live guard. -/
def Sys.init {T : Type} (v : T) : Sys T :=
  { mutex := Mutex.new v, holders := [] }

/-- Labels of the transitions generated by `Mutex::lock` and guard
destruction, tagged with the hart performing them. -/
inductive Label where
  | acquire (u : Nat) : Label
  | spin (u : Nat) : Label
  | release (u : Nat) : Label
deriving DecidableEq, Repr

/-- The step relation generated by the source operations.
* `acquire u`: one `lockAttempt` whose swap returned a value other than `1`,
  so the `while` loop of `Mutex::lock` exits and hart `u` receives a guard;
* `spin u`: one `lockAttempt` whose swap returned `1`, so the loop retries;
* `release u`: hart `u`, holding a live guard, destroys it
  (`MutexGuard::drop`). -/
inductive Step {T : Type} : Sys T → Label → Sys T → Prop where
  | acquire (u : Nat) (s : Sys T)
      (h : (Mutex.lockAttempt s.mutex).1 ≠ 1) :
      Step s (Label.acquire u)
        { mutex := (Mutex.lockAttempt s.mutex).2.1, holders := u :: s.holders }
  | spin (u : Nat) (s : Sys T)
      (h : (Mutex.lockAttempt s.mutex).1 = 1) :
      Step s (Label.spin u)
        { mutex := (Mutex.lockAttempt s.mutex).2.1, holders := s.holders }
  | release (u : Nat) (s : Sys T)
      (h : u ∈ s.holders) :
      Step s (Label.release u)
        { mutex := (MutexGuard.drop s.mutex).1, holders := s.holders.erase u }

/-- Reachability from the freshly constructed mutex by any interleaving of
lock attempts and guard destructions. -/
def Reachable {T : Type} (v : T) (s : Sys T) : Prop :=
  Relation.ReflTransGen (fun a b => ∃ l, Step a l b) (Sys.init v) s

/-- The inductive invariant of the system: the lock word counts the live
guards, and there is at most one live guard. -/
def Inv {T : Type} (s : Sys T) : Prop :=
  s.mutex.lock_state = s.holders.length ∧ s.holders.length ≤ 1

theorem Inv_init {T : Type} (v : T) : Inv (Sys.init v) := by
  constructor <;> simp [Sys.init, Mutex.new, Inv]

theorem Inv_step {T : Type} {s s' : Sys T} {l : Label}
    (hI : Inv s) (hs : Step s l s') : Inv s' := by
  obtain ⟨h1, h2⟩ := hI
  cases hs with
  | acquire u s h =>
      simp only [Mutex.lockAttempt, ne_eq] at h
      simp only [Inv, Mutex.lockAttempt, List.length_cons]
      omega
  | spin u s h =>
      simp only [Mutex.lockAttempt] at h
      simp only [Inv, Mutex.lockAttempt]
      omega
  | release u s h =>
      have hpos : 0 < s.holders.length := List.length_pos.mpr (List.ne_nil_of_mem h)
      simp only [Inv, MutexGuard.drop, List.length_erase_of_mem h]
      omega

theorem Inv_reachable {T : Type} {v : T} {s : Sys T}
    (h : Reachable v s) : Inv s := by
  induction h with
  | refl => exact Inv_init v
  | tail hab hbc ih =>
      obtain ⟨l, hstep⟩ := hbc
      exact Inv_step ih hstep

/- ### Claims about `write_clint` -/

/-- Claim C1 (refuting the stated behaviour): at hart 0, base `0x2000000`
and interval `1000000`, `write_clint` performs no read at all — in
particular it never reads the free-running counter at `base + 0xBFF8` — and
the value it writes is `target + 0xBFF8 + interval` computed from the
target register's own address, so the written value changes when only the
hart identifier changes, contradicting independence from the target
register's address. -/
theorem write_clint_value_from_target_address :
    (∀ a, MemEvent.read a ∉ write_clint 0 0x2000000 1000000) ∧
    write_clint 0 0x2000000 1000000 =
      [MemEvent.write 0x2004000 (0x2004000 + 0xBFF8 + 1000000)] ∧
    writtenValues (write_clint 0 0x2000000 1000000) ≠
      writtenValues (write_clint 1 0x2000000 1000000) := by
  refine ⟨fun a => ?_, by decide, by decide⟩
  simp [write_clint]

/-- Claim C4: when the target slot address fits in 64 bits, the single
memory-mapped write of `write_clint` targets exactly
`base + 0x4000 + 8 * hartid`. -/
theorem write_clint_targets_hart_slot (hartid base interval : Nat)
    (h : base + 0x4000 + 8 * hartid < U64) :
    ∃ v, write_clint hartid base interval =
      [MemEvent.write (base + 0x4000 + 8 * hartid) v] := by
  refine ⟨(base + 0x4000 + 8 * hartid + 0xBFF8 + interval) % U64, ?_⟩
  simp [write_clint, Nat.mod_eq_of_lt h]

theorem write_clint_targets_hart_slot_witness :
    ∃ v, write_clint 1 0x2000000 1000000 =
      [MemEvent.write (0x2000000 + 0x4000 + 8 * 1) v] :=
  write_clint_targets_hart_slot 1 0x2000000 1000000 (by decide)

/-- Claim C5: for every hartid, base and interval, `write_clint` performs
exactly one volatile 64-bit write, to address
`(base + 0x4000 + 8 * hartid) % 2 ^ 64`, of the value obtained by adding
`0xBFF8 + interval` to that target address (wrapping modulo `2 ^ 64`),
and performs no memory read at all — in particular none of
`base + 0xBFF8`. -/
theorem write_clint_single_write_no_read (hartid base interval : Nat) :
    write_clint hartid base interval =
      [MemEvent.write ((base + 0x4000 + 8 * hartid) % U64)
        (((base + 0x4000 + 8 * hartid) % U64 + 0xBFF8 + interval) % U64)] ∧
    ∀ a, MemEvent.read a ∉ write_clint hartid base interval := by
  refine ⟨rfl, fun a => ?_⟩
  simp [write_clint]

/- ### Claims about the spinlock -/

/-- Claim C2: in every state reachable from a freshly constructed mutex by
any interleaving of lock attempts and guard destructions, at most one hart
holds a live guard. -/
theorem mutex_at_most_one_live_guard (T : Type) (v : T) (s : Sys T)
    (h : Reachable v s) : s.holders.length ≤ 1 :=
  (Inv_reachable h).2

theorem mutex_at_most_one_live_guard_witness :
    ({ mutex := (Mutex.lockAttempt (Sys.init (0 : Nat)).mutex).2.1,
       holders := [0] } : Sys Nat).holders.length ≤ 1 :=
  mutex_at_most_one_live_guard Nat 0 _
    (Relation.ReflTransGen.single
      ⟨Label.acquire 0, Step.acquire 0 (Sys.init 0) (by decide)⟩)

/-- Claim C3: the lock-acquiring swap of `Mutex::lock` is issued with
`Acquire` memory ordering and the releasing store of `MutexGuard::drop`
with `Release` memory ordering — the acquire/release pair under which the
architecture makes every memory operation of the holder visible to the
next acquirer. -/
theorem lock_uses_acquire_drop_uses_release (T : Type) (m : Mutex T) :
    ((Mutex.lockAttempt m).2.2).ord = Atomic.Ordering.Acquire ∧
    ((MutexGuard.drop m).2).ord = Atomic.Ordering.Release :=
  ⟨rfl, rfl⟩

/-- Claim C6: a step of the system ends with the lock word equal to 0
exactly when it is a guard destruction: `MutexGuard::drop` unconditionally
stores 0, and no `acquire` or `spin` step ever leaves the lock word 0, so
guard destruction is the unique transition from Locked to Unlocked. -/
theorem guard_drop_unique_unlock (T : Type) (s s' : Sys T) (l : Label)
    (hs : Step s l s') :
    s'.mutex.lock_state = 0 ↔ ∃ u, l = Label.release u := by
  cases hs with
  | acquire u s h => simp [Mutex.lockAttempt]
  | spin u s h => simp [Mutex.lockAttempt]
  | release u s h => simp [MutexGuard.drop]

theorem guard_drop_unique_unlock_witness :
    (({ mutex := (MutexGuard.drop ({ lock_state := 1, inner := 0 } : Mutex Nat)).1,
        holders := ([0] : List Nat).erase 0 } : Sys Nat).mutex.lock_state = 0 ↔
      ∃ u, Label.release 0 = Label.release u) :=
  guard_drop_unique_unlock Nat
    { mutex := { lock_state := 1, inner := 0 }, holders := [0] } _ (Label.release 0)
    (Step.release 0 { mutex := { lock_state := 1, inner := 0 }, holders := [0] }
      (by decide))

/-- Claim C7: from any reachable state, a lock attempt hands out a guard
only when the atomic swap observed the lock word equal to 0, it leaves the
lock word equal to 1 when it does, and a failed attempt (swap observed 1)
leaves the whole state unchanged, to be retried. -/
theorem lock_acquire_only_from_unlocked (T : Type) (v : T) (s : Sys T)
    (hr : Reachable v s) (l : Label) (s' : Sys T) (hs : Step s l s') :
    ((∃ u, l = Label.acquire u) →
      s.mutex.lock_state = 0 ∧ s'.mutex.lock_state = 1) ∧
    ((∃ u, l = Label.spin u) → s' = s) := by
  obtain ⟨h1, h2⟩ := Inv_reachable hr
  cases hs with
  | acquire u s h =>
      refine ⟨fun _ => ⟨?_, rfl⟩, ?_⟩
      · simp only [Mutex.lockAttempt, ne_eq] at h
        omega
      · rintro ⟨u2, hu⟩
        cases hu
  | spin u s h =>
      refine ⟨?_, fun _ => ?_⟩
      · rintro ⟨u2, hu⟩
        cases hu
      · simp only [Mutex.lockAttempt] at h
        obtain ⟨⟨ls, payload⟩, hol⟩ := s
        simp only at h
        subst h
        rfl
  | release u s h =>
      refine ⟨?_, ?_⟩ <;> rintro ⟨u2, hu⟩ <;> cases hu

theorem lock_acquire_only_from_unlocked_witness :
    ((∃ u, Label.acquire 0 = Label.acquire u) →
      (Sys.init (0 : Nat)).mutex.lock_state = 0 ∧
      ({ mutex := (Mutex.lockAttempt (Sys.init (0 : Nat)).mutex).2.1,
         holders := [0] } : Sys Nat).mutex.lock_state = 1) ∧
    ((∃ u, Label.acquire 0 = Label.spin u) →
      ({ mutex := (Mutex.lockAttempt (Sys.init (0 : Nat)).mutex).2.1,
         holders := [0] } : Sys Nat) = Sys.init 0) :=
  lock_acquire_only_from_unlocked Nat 0 (Sys.init 0) Relation.ReflTransGen.refl
    (Label.acquire 0) _ (Step.acquire 0 (Sys.init 0) (by decide))

/-- Claim C8: `Mutex::new v` produces a mutex whose lock word is 0
(Unlocked) and whose payload is `v`. -/
theorem mutex_new_unlocked_payload (T : Type) (v : T) :
    (Mutex.new v).lock_state = 0 ∧ (Mutex.new v).inner = v :=
  ⟨rfl, rfl⟩

/-- Claim C9: in every reachable state of the system the lock word is 0 or
1; no operation ever stores any other value into it. -/
theorem lock_state_in_zero_one (T : Type) (v : T) (s : Sys T)
    (h : Reachable v s) :
    s.mutex.lock_state = 0 ∨ s.mutex.lock_state = 1 := by
  obtain ⟨h1, h2⟩ := Inv_reachable h
  omega

theorem lock_state_in_zero_one_witness :
    (Sys.init (5 : Nat)).mutex.lock_state = 0 ∨
      (Sys.init (5 : Nat)).mutex.lock_state = 1 :=
  lock_state_in_zero_one Nat 5 (Sys.init 5) Relation.ReflTransGen.refl

/-- Claim C10: lock attempts and guard destruction modify only the lock
word — every step of the system leaves the owned payload unchanged. -/
theorem lock_and_drop_preserve_payload (T : Type) (s s' : Sys T) (l : Label)
    (hs : Step s l s') : s'.mutex.inner = s.mutex.inner := by
  cases hs with
  | acquire u s h => rfl
  | spin u s h => rfl
  | release u s h => rfl

theorem lock_and_drop_preserve_payload_witness :
    ({ mutex := (Mutex.lockAttempt ({ lock_state := 1, inner := 7 } : Mutex Nat)).2.1,
       holders := ([] : List Nat) } : Sys Nat).mutex.inner =
      ({ mutex := { lock_state := 1, inner := 7 }, holders := [] } : Sys Nat).mutex.inner :=
  lock_and_drop_preserve_payload Nat
    { mutex := { lock_state := 1, inner := 7 }, holders := [] } _ (Label.spin 0)
    (Step.spin 0 { mutex := { lock_state := 1, inner := 7 }, holders := [] }
      (by decide))

end Reedos
